import Mathlib

/-!
# Verification of the items catalog service

Shallow embedding of the data-access, search, pagination, statistics and
caching layer of the items catalog backend, together with proofs of the
specified properties.

JavaScript strings are modelled as `List Char`; JavaScript numbers appearing
in price arithmetic are modelled as `ℚ` (with `none : Option ℚ` standing for
`NaN`, the result of a failed `parseFloat`); absent object fields are
modelled with `Option`.
-/

set_option autoImplicit false

namespace Koinos

/-- A JavaScript string, modelled as its sequence of characters. -/
abbrev JSStr := List Char

/-- `s.toLowerCase()` (character-wise lowering). -/
def jsToLower (s : JSStr) : JSStr := s.map Char.toLower

/-- `s.trim()`: strip leading and trailing whitespace. -/
def jsTrim (s : JSStr) : JSStr :=
  ((s.dropWhile Char.isWhitespace).reverse.dropWhile Char.isWhitespace).reverse

/-- Does `s` start with the character sequence `sub`? -/
def startsWithSeq : JSStr → JSStr → Bool
  | _, [] => true
  | [], _ :: _ => false
  | c :: s, d :: t => c = d && startsWithSeq s t

/-- `s.includes(sub)`: `sub` occurs contiguously in `s`. -/
def jsIncludes : (s sub : JSStr) → Bool
  | [], sub => startsWithSeq [] sub
  | c :: rest, sub => startsWithSeq (c :: rest) sub || jsIncludes rest sub

/-- An item record.  `name`, `description` and `category` may be absent
(`none`); `price` is `some q` when `parseFloat(item.price)` yields the
number `q` and `none` when it yields `NaN` (missing or unparseable). -/
structure Item where
  id : Int
  name : Option JSStr
  description : Option JSStr
  category : Option JSStr
  price : Option ℚ
deriving DecidableEq

/-- `item.field || ''` for a string-valued field: absent (and empty)
fields collapse to the empty string. -/
def orEmpty (f : Option JSStr) : JSStr := f.getD []

/-- The body of the predicate passed to `items.filter` in `filterItems`:
the lower-cased `name`, `description` or `category` (absent fields treated
as `''`) contains the search term as a substring. -/
def itemMatches (searchTerm : JSStr) (item : Item) : Bool :=
  jsIncludes (jsToLower (orEmpty item.name)) searchTerm ||
  jsIncludes (jsToLower (orEmpty item.description)) searchTerm ||
  jsIncludes (jsToLower (orEmpty item.category)) searchTerm

/-- `filterItems(items, query)` from `searchService.js`:
return `items` unchanged when the query is empty or all-whitespace,
otherwise filter by case-insensitive substring match of the trimmed,
lower-cased query against name, description and category. -/
def filterItems (items : List Item) (query : JSStr) : List Item :=
  if query = [] ∨ jsTrim query = [] then
    items
  else
    let searchTerm := jsTrim (jsToLower query)
    items.filter (itemMatches searchTerm)

/-! ## Pagination and the `GET /api/items` route handler

`router.get('/items')` in `items.js` destructures `page = 1, limit = 10, q = ''`
from the query, filters when `q` is truthy, then computes
`pageNum = parseInt(page, 10)`, `limitNum = parseInt(limit, 10)`,
`startIndex = (pageNum - 1) * limitNum`, `endIndex = startIndex + limitNum`,
slices and returns pagination metadata.  `parseInt` of a non-numeric string
is `NaN`, modelled as `none : Option Int`; numbers appearing in the JSON
response may be `NaN` or `Infinity`, modelled by `JSNum`. -/

/-- A JavaScript number as it appears in the response metadata. -/
inductive JSNum where
  | num (q : ℚ)
  | nan
  | inf
  | ninf
deriving DecidableEq

/-- `parseInt(s, 10)`: skip leading whitespace, optional sign, then the
longest digit run; `NaN` (here `none`) when no digits follow. -/
def parseDigits (l : JSStr) : Option Nat :=
  let ds := l.takeWhile Char.isDigit
  if ds = [] then none
  else some (ds.foldl (fun acc c => acc * 10 + (c.toNat - 48)) 0)

/-- `parseInt(s, 10)` on a string value. -/
def jsParseIntStr (s : JSStr) : Option Int :=
  let t := s.dropWhile Char.isWhitespace
  match t with
  | '-' :: rest => (parseDigits rest).map (fun n => -(n : Int))
  | '+' :: rest => (parseDigits rest).map (fun n => (n : Int))
  | _ => (parseDigits t).map (fun n => (n : Int))

/-- `parseInt(x, 10)` where `x` is the destructured query parameter:
an absent parameter was replaced by the numeric default, which `parseInt`
maps to itself. -/
def paramToInt (raw : Option JSStr) (deflt : Int) : Option Int :=
  match raw with
  | none => some deflt
  | some s => jsParseIntStr s

/-- NaN-propagating binary arithmetic on JavaScript numbers. -/
def nanMap2 (f : Int → Int → Int) : Option Int → Option Int → Option Int
  | some a, some b => some (f a b)
  | _, _ => none

/-- `ToIntegerOrInfinity` + clamping as used by `Array.prototype.slice` for
one index argument: `NaN` becomes `0`, a negative index counts from the end
(clamped at `0`), a positive one is clamped at the length. -/
def sliceIndex (n : Nat) (x : Option Int) : Nat :=
  match x with
  | none => 0
  | some i => if i < 0 then (n + i).toNat else min i.toNat n

/-- `arr.slice(s, e)` (elements from index `s` inclusive to `e` exclusive,
after index normalisation). -/
def jsSlice {α : Type} (l : List α) (s e : Option Int) : List α :=
  (l.take (sliceIndex l.length e)).drop (sliceIndex l.length s)

/-- `Math.ceil(len / limit)` on a non-negative integer numerator:
division by `NaN` is `NaN`; `len / 0` is `Infinity` for positive `len`
and `NaN` for `len = 0`. -/
def jsCeilDiv (len : Nat) (limit : Option Int) : JSNum :=
  match limit with
  | none => .nan
  | some l =>
    if l = 0 then (if len = 0 then .nan else .inf)
    else .num (⌈(len : ℚ) / (l : ℚ)⌉ : ℤ)

/-- Inject a possibly-NaN integer into a response-level number. -/
def toJSNum : Option Int → JSNum
  | some i => .num (i : ℚ)
  | none => .nan

/-- The `pagination` object of the `/api/items` response. -/
structure Pagination where
  currentPage : JSNum
  totalPages : JSNum
  totalItems : Nat
  itemsPerPage : JSNum
deriving DecidableEq

/-- The pagination block of the route handler: slice the filtered items and
build the metadata. -/
def paginate (filteredItems : List Item) (pageNum limitNum : Option Int) :
    List Item × Pagination :=
  let startIndex := nanMap2 (fun p l => (p - 1) * l) pageNum limitNum
  let endIndex := nanMap2 (· + ·) startIndex limitNum
  let paginatedItems := jsSlice filteredItems startIndex endIndex
  (paginatedItems,
   { currentPage := toJSNum pageNum
     totalPages := jsCeilDiv filteredItems.length limitNum
     totalItems := filteredItems.length
     itemsPerPage := toJSNum limitNum })

/-- The body of the `/api/items` response. -/
structure ItemsResponse where
  items : List Item
  pagination : Pagination
deriving DecidableEq

/-- The `GET /api/items` handler given a successfully loaded snapshot:
`pageRaw`/`limitRaw`/`qRaw` are the raw query parameters (`none` = absent).
The handler has no parameter-validation path: it never fails on `page`,
`limit` or `q`. -/
def itemsRoute (allItems : List Item) (pageRaw limitRaw qRaw : Option JSStr) :
    ItemsResponse :=
  let q := qRaw.getD []
  let filteredItems := if q = [] then allItems else filterItems allItems q
  let pageNum := paramToInt pageRaw 1
  let limitNum := paramToInt limitRaw 10
  let (paginatedItems, meta) := paginate filteredItems pageNum limitNum
  { items := paginatedItems, pagination := meta }

/-! ## The stats aggregator (`calculateStats` in `statsService.js`) -/

/-- The category counts object, a JavaScript object used as a map from
category name to count, in insertion order. -/
abbrev CatCounts := List (JSStr × Nat)

/-- `categories[category]`, reading an absent key as `0`
(`categories[category] || 0`). -/
def lookupCount : CatCounts → JSStr → Nat
  | [], _ => 0
  | p :: m, c => if p.1 = c then p.2 else lookupCount m c

/-- `categories[category] = (categories[category] || 0) + 1`: update the
entry in place when the key exists, append it otherwise. -/
def bumpCat : CatCounts → JSStr → CatCounts
  | [], c => [(c, 1)]
  | p :: m, c => if p.1 = c then (p.1, p.2 + 1) :: m else p :: bumpCat m c

/-- `item.category || 'uncategorized'`: absent or empty category falls back
to the literal. -/
def jsCategory (item : Item) : JSStr :=
  match item.category with
  | none => "uncategorized".data
  | some c => if c = [] then "uncategorized".data else c

/-- The `Stats` record returned by `calculateStats`. -/
structure Stats where
  totalItems : Nat
  averagePrice : ℚ
  minPrice : ℚ
  maxPrice : ℚ
  categories : CatCounts
deriving DecidableEq

/-- The zero-value `Stats` returned for empty or non-array input. -/
def zeroStats : Stats :=
  { totalItems := 0, averagePrice := 0, minPrice := 0, maxPrice := 0,
    categories := [] }

/-- `parseFloat(x.toFixed(2))`: round to two decimal places
(round-half-up at the second decimal, exact over `ℚ`). -/
def round2 (x : ℚ) : ℚ := (round (x * 100) : ℤ) / 100

/-- `Math.min(...prices)` over a non-empty argument list (the empty case is
never reached in `calculateStats`; we return `0` there). -/
def jsMinList : List ℚ → ℚ
  | [] => 0
  | h :: t => t.foldl min h

/-- `Math.max(...prices)` over a non-empty argument list. -/
def jsMaxList : List ℚ → ℚ
  | [] => 0
  | h :: t => t.foldl max h

/-- The argument of `calculateStats`, which JavaScript does not constrain to
be an array: `notArr` covers `null`, `undefined` and every other non-array
value, tagged by a description of the value. -/
inductive StatsInput where
  | arr (items : List Item)
  | notArr (tag : String)
deriving DecidableEq

/-- `items.map(i => parseFloat(i.price)).filter(p => !isNaN(p))`: the
parseable prices, in item order. -/
def parsedPrices (items : List Item) : List ℚ :=
  items.filterMap (fun item => item.price)

/-- `calculateStats(items)` from `statsService.js`.  Non-array or empty
input short-circuits to the zero stats; otherwise
`prices = items.map(i => parseFloat(i.price)).filter(p => !isNaN(p))`,
categories are accumulated with `forEach`, and the price statistics are
computed over `prices`. -/
def calculateStats : StatsInput → Stats
  | .notArr _ => zeroStats
  | .arr items =>
    if items.length = 0 then zeroStats
    else
      let prices := parsedPrices items
      let categories := items.foldl (fun m item => bumpCat m (jsCategory item)) []
      { totalItems := items.length
        averagePrice :=
          if prices.length > 0 then round2 (prices.sum / (prices.length : ℚ))
          else 0
        minPrice := if prices.length > 0 then jsMinList prices else 0
        maxPrice := if prices.length > 0 then jsMaxList prices else 0
        categories := categories }

/-! ## The items cache (`getItems` in `items.js`)

Module-level state `itemsCache` / `itemsCacheTimestamp` with
`CACHE_TTL = 30000`.  `getItems()` returns the cached snapshot when
`itemsCache && (now - itemsCacheTimestamp) < CACHE_TTL`, otherwise it reads
the data file; on success it installs the parsed data with timestamp `now`,
on failure it throws `'Failed to read items data'` without touching the
cached state.  We model one call as a pure function of the state, the clock
reading `Date.now()`, and the outcome the file read would produce, returning
the call's result, the successor state, and whether the read was issued. -/

/-- A loaded snapshot: the parsed contents of `items.json`. -/
abbrev Snapshot := List Item

/-- The module-level cache state of `items.js`. -/
structure ItemsCacheState where
  itemsCache : Option Snapshot
  itemsCacheTimestamp : Nat
deriving DecidableEq

/-- `CACHE_TTL` of the items cache (30 seconds in milliseconds). -/
def CACHE_TTL : Nat := 30000

/-- One call to `getItems()`: result, successor state, and whether
`fs.readFile` was invoked. -/
def getItems (st : ItemsCacheState) (now : Nat)
    (readResult : Except String Snapshot) :
    Except String Snapshot × ItemsCacheState × Bool :=
  match st.itemsCache with
  | some cached =>
    if now - st.itemsCacheTimestamp < CACHE_TTL then
      (.ok cached, st, false)
    else
      match readResult with
      | .ok data => (.ok data, ⟨some data, now⟩, true)
      | .error _ => (.error "Failed to read items data", st, true)
  | none =>
    match readResult with
    | .ok data => (.ok data, ⟨some data, now⟩, true)
    | .error _ => (.error "Failed to read items data", st, true)

/-! ## Concurrent `getItems` calls

`getItems` is synchronous from its entry up to `await fs.readFile(...)`:
the validity check and the start of the read happen in one event-loop turn.
The continuation after the `await` (installing the snapshot and returning)
runs in a later turn.  We model each request as a task with an explicit
suspension point and execute an arbitrary interleaving of turn events. -/

deriving instance DecidableEq for Except

/-- Progress of one request through `getItems`. -/
inductive TaskState where
  | notStarted
  | waiting (capturedNow : Nat) (readResult : Except String Snapshot)
  | done (result : Except String Snapshot)
deriving DecidableEq

/-- Shared state: the module-level cache, the number of `fs.readFile`
invocations, and the per-task progress. -/
structure ConcState where
  cache : ItemsCacheState
  readFileCalls : Nat
  tasks : List TaskState
deriving DecidableEq

/-- An event-loop turn: `startCall tid now r` runs task `tid` from the top of
`getItems` to its first suspension (`r` is what its file read will later
deliver); `finishRead tid` resumes it after the read resolves. -/
inductive Ev where
  | startCall (tid : Nat) (now : Nat) (readResult : Except String Snapshot)
  | finishRead (tid : Nat)
deriving DecidableEq

/-- Execute one event-loop turn. -/
def stepEv (s : ConcState) (e : Ev) : ConcState :=
  match e with
  | .startCall tid now r =>
    match s.tasks.get? tid with
    | some .notStarted =>
      match s.cache.itemsCache with
      | some cached =>
        if now - s.cache.itemsCacheTimestamp < CACHE_TTL then
          { s with tasks := s.tasks.set tid (.done (.ok cached)) }
        else
          { s with readFileCalls := s.readFileCalls + 1,
                   tasks := s.tasks.set tid (.waiting now r) }
      | none =>
        { s with readFileCalls := s.readFileCalls + 1,
                 tasks := s.tasks.set tid (.waiting now r) }
    | _ => s
  | .finishRead tid =>
    match s.tasks.get? tid with
    | some (.waiting now r) =>
      match r with
      | .ok data =>
        { s with cache := ⟨some data, now⟩,
                 tasks := s.tasks.set tid (.done (.ok data)) }
      | .error _ =>
        { s with tasks := s.tasks.set tid (.done (.error "Failed to read items data")) }
    | _ => s

/-- Execute a schedule of event-loop turns. -/
def runEvs (s : ConcState) (evs : List Ev) : ConcState := evs.foldl stepEv s

/-- Two `getItems()` calls that both enter before either file read resolves
(the schedule exhibiting concurrent stale reads): task 0 and task 1 run
their synchronous prefix at time `now`, then their reads complete in order,
delivering `a` and `b` respectively. -/
def twoStaleCallsRun (st : ItemsCacheState) (now : Nat) (a b : Snapshot) :
    ConcState :=
  runEvs ⟨st, 0, [.notStarted, .notStarted]⟩
    [.startCall 0 now (.ok a), .startCall 1 now (.ok b),
     .finishRead 0, .finishRead 1]

/-! ## The stats cache (`getCachedStats` / `invalidateCache` in
`statsService.js`)

Module-level state `statsCache` / `statsCacheTimestamp` / `cacheTimeout` /
`watcher` with `CACHE_TTL = 60000`.  `getCachedStats(getItemsFn)` serves the
cached stats while valid; otherwise it awaits `getItemsFn()`, recomputes,
installs the result with timestamp `now`, lazily installs the file watcher,
and re-arms the expiry timeout.  `invalidateCache()` clears the value and
timestamp and cancels any pending timeout. -/

/-- The module-level state of `statsService.js`.  `cacheTimeout` is the
pending expiry timer (`some t` = armed to fire at time `t`), `watcher`
whether the file watcher has been installed. -/
structure StatsCacheState where
  statsCache : Option Stats
  statsCacheTimestamp : Nat
  cacheTimeout : Option Nat
  watcher : Bool
deriving DecidableEq

/-- `CACHE_TTL` of the stats cache (60 seconds in milliseconds). -/
def STATS_CACHE_TTL : Nat := 60000

/-- One call to `getCachedStats(getItemsFn)`: `itemsResult` is what
`await getItemsFn()` delivers (an error models a throw, which propagates and
leaves the cache untouched).  Returns the result, the successor state, and
whether the cached value was bypassed (the recompute path was taken). -/
def getCachedStats (st : StatsCacheState) (now : Nat)
    (itemsResult : Except String (List Item)) :
    Except String Stats × StatsCacheState × Bool :=
  match st.statsCache with
  | some cached =>
    if now - st.statsCacheTimestamp < STATS_CACHE_TTL then
      (.ok cached, st, false)
    else
      match itemsResult with
      | .error e => (.error e, st, true)
      | .ok items =>
        let stats := calculateStats (.arr items)
        (.ok stats,
         { statsCache := some stats, statsCacheTimestamp := now,
           cacheTimeout := some (now + STATS_CACHE_TTL), watcher := true },
         true)
  | none =>
    match itemsResult with
    | .error e => (.error e, st, true)
    | .ok items =>
      let stats := calculateStats (.arr items)
      (.ok stats,
       { statsCache := some stats, statsCacheTimestamp := now,
         cacheTimeout := some (now + STATS_CACHE_TTL), watcher := true },
       true)

/-- `invalidateCache()`: clear the value and timestamp and cancel any
pending expiry timeout (the watcher subscription is left alone). -/
def invalidateCache (st : StatsCacheState) : StatsCacheState :=
  { statsCache := none, statsCacheTimestamp := 0, cacheTimeout := none,
    watcher := st.watcher }

/-! ## Concrete inputs used by witnesses and counterexamples -/

/-- A small catalog entry that matches the query `"lap"`. -/
def demoLaptop : Item :=
  { id := 1, name := some "Laptop".data,
    description := some "High performance".data,
    category := some "Electronics".data, price := some 100 }

/-- An entry with absent description and category. -/
def demoBare : Item :=
  { id := 2, name := some "Mouse".data, description := none,
    category := none, price := some 150 }

/-- An entry with an unparseable price. -/
def demoNoPrice : Item :=
  { id := 3, name := some "Desk".data,
    description := some "Wooden desk".data,
    category := some "Furniture".data, price := none }

/-- A three-item demo catalog. -/
def demoItems : List Item := [demoLaptop, demoBare, demoNoPrice]

/-- A 45-item catalog for the pagination example. -/
def demoItems45 : List Item :=
  (List.range 45).map (fun i =>
    { id := (i : Int), name := some "Widget".data, description := none,
      category := some "A".data, price := some ((i : ℚ) + 1) })

/-! ## Theorems -/

/-- C1: for every item list and every query that is neither empty nor
all-whitespace, `filterItems` returns exactly the items whose lower-cased
name, description or category contains the trimmed, lower-cased query as a
substring — the result is the order-preserving sub-list of the input
selected by that predicate, absent description/category fields being read
as the empty string. -/
theorem filterItems_exact_matches (items : List Item) (query : JSStr)
    (h : jsTrim query ≠ []) :
    filterItems items query =
      items.filter (fun item =>
        jsIncludes (jsToLower (item.name.getD [])) (jsTrim (jsToLower query)) ||
        jsIncludes (jsToLower (item.description.getD [])) (jsTrim (jsToLower query)) ||
        jsIncludes (jsToLower (item.category.getD [])) (jsTrim (jsToLower query))) ∧
    (filterItems items query).Sublist items ∧
    ∀ item : Item, item ∈ filterItems items query ↔
      item ∈ items ∧
        (jsIncludes (jsToLower (item.name.getD [])) (jsTrim (jsToLower query)) = true ∨
         jsIncludes (jsToLower (item.description.getD [])) (jsTrim (jsToLower query)) = true ∨
         jsIncludes (jsToLower (item.category.getD [])) (jsTrim (jsToLower query)) = true) := by
  have hg : ¬(query = [] ∨ jsTrim query = []) := by
    rintro (rfl | h2)
    · exact h rfl
    · exact h h2
  have hfi : filterItems items query =
      items.filter (itemMatches (jsTrim (jsToLower query))) := by
    rw [filterItems, if_neg hg]
  refine ⟨?_, ?_, ?_⟩
  · rw [hfi]; rfl
  · rw [hfi]; exact List.filter_sublist items
  · intro item
    rw [hfi, List.mem_filter, itemMatches]
    simp only [orEmpty, Bool.or_eq_true]
    tauto

/-- Witness for C1 at a concrete catalog and the query `"lap"`. -/
theorem filterItems_exact_matches_witness :
    jsTrim "lap".data ≠ [] ∧
    (filterItems demoItems "lap".data).Sublist demoItems ∧
    filterItems demoItems "lap".data = [demoLaptop] :=
  ⟨by decide,
   (filterItems_exact_matches demoItems "lap".data (by decide)).2.1,
   by decide⟩

/-- Updating one category leaves all other counts alone and increments the
updated one. -/
theorem lookupCount_bumpCat (m : CatCounts) (c0 c : JSStr) :
    lookupCount (bumpCat m c0) c =
      lookupCount m c + (if c0 = c then 1 else 0) := by
  induction m with
  | nil =>
    simp only [bumpCat, lookupCount]
    split_ifs <;> simp
  | cons p m ih =>
    simp only [bumpCat]
    by_cases hp : p.1 = c0
    · simp only [if_pos hp, lookupCount]
      by_cases hc : p.1 = c
      · have hc0 : c0 = c := by rw [← hp, hc]
        simp [hc, hc0]
      · have hc0 : ¬(c0 = c) := fun h => hc (by rw [hp, h])
        simp [hc, hc0]
    · simp only [if_neg hp, lookupCount]
      by_cases hc : p.1 = c
      · have hc0 : ¬(c0 = c) := fun h => hp (by rw [hc, h])
        simp [hc, hc0]
      · simp [hc, ih]

/-- The category accumulation of `calculateStats` counts, for every
category name, exactly the items that resolve to that name. -/
theorem lookupCount_foldl_bumpCat (items : List Item) (m : CatCounts)
    (c : JSStr) :
    lookupCount (items.foldl (fun acc item => bumpCat acc (jsCategory item)) m) c =
      lookupCount m c +
        items.countP (fun item => decide (jsCategory item = c)) := by
  induction items generalizing m with
  | nil => simp [List.countP_nil]
  | cons it items ih =>
    simp only [List.foldl_cons, List.countP_cons, ih, lookupCount_bumpCat]
    by_cases h : jsCategory it = c
    all_goals simp [h]
    all_goals omega

/-- A left fold of `min` yields an element of the seed-plus-list. -/
theorem foldl_min_mem {α : Type} [LinearOrder α] (t : List α) (a : α) :
    t.foldl min a = a ∨ t.foldl min a ∈ t := by
  induction t generalizing a with
  | nil => exact Or.inl rfl
  | cons b t ih =>
    rcases ih (min a b) with h | h
    · rcases min_choice a b with hm | hm
      · exact Or.inl (by rw [List.foldl_cons, h, hm])
      · exact Or.inr (by rw [List.foldl_cons, h, hm]; exact List.mem_cons_self b t)
    · exact Or.inr (List.mem_cons_of_mem b h)

/-- A left fold of `min` is a lower bound of the seed and the list. -/
theorem foldl_min_le {α : Type} [LinearOrder α] (t : List α) (a : α) :
    t.foldl min a ≤ a ∧ ∀ x ∈ t, t.foldl min a ≤ x := by
  induction t generalizing a with
  | nil => exact ⟨le_refl a, by simp⟩
  | cons b t ih =>
    obtain ⟨h1, h2⟩ := ih (min a b)
    refine ⟨le_trans h1 (min_le_left a b), ?_⟩
    intro x hx
    rcases List.mem_cons.mp hx with rfl | hx
    · exact le_trans h1 (min_le_right a x)
    · exact h2 x hx

/-- A left fold of `max` yields an element of the seed-plus-list. -/
theorem foldl_max_mem {α : Type} [LinearOrder α] (t : List α) (a : α) :
    t.foldl max a = a ∨ t.foldl max a ∈ t := by
  induction t generalizing a with
  | nil => exact Or.inl rfl
  | cons b t ih =>
    rcases ih (max a b) with h | h
    · rcases max_choice a b with hm | hm
      · exact Or.inl (by rw [List.foldl_cons, h, hm])
      · exact Or.inr (by rw [List.foldl_cons, h, hm]; exact List.mem_cons_self b t)
    · exact Or.inr (List.mem_cons_of_mem b h)

/-- A left fold of `max` is an upper bound of the seed and the list. -/
theorem foldl_max_le {α : Type} [LinearOrder α] (t : List α) (a : α) :
    a ≤ t.foldl max a ∧ ∀ x ∈ t, x ≤ t.foldl max a := by
  induction t generalizing a with
  | nil => exact ⟨le_refl a, by simp⟩
  | cons b t ih =>
    obtain ⟨h1, h2⟩ := ih (max a b)
    refine ⟨le_trans (le_max_left a b) h1, ?_⟩
    intro x hx
    rcases List.mem_cons.mp hx with rfl | hx
    · exact le_trans (le_max_right a x) h1
    · exact h2 x hx

/-- `jsMinList` of a non-empty list is its least element. -/
theorem jsMinList_spec (l : List ℚ) (h : l ≠ []) :
    jsMinList l ∈ l ∧ ∀ x ∈ l, jsMinList l ≤ x := by
  match l with
  | [] => exact absurd rfl h
  | a :: t =>
    simp only [jsMinList]
    obtain ⟨h1, h2⟩ := foldl_min_le t a
    constructor
    · rcases foldl_min_mem t a with hm | hm
      · rw [hm]; exact List.mem_cons_self a t
      · exact List.mem_cons_of_mem a hm
    · intro x hx
      rcases List.mem_cons.mp hx with rfl | hx
      · exact h1
      · exact h2 x hx

/-- `jsMaxList` of a non-empty list is its greatest element. -/
theorem jsMaxList_spec (l : List ℚ) (h : l ≠ []) :
    jsMaxList l ∈ l ∧ ∀ x ∈ l, x ≤ jsMaxList l := by
  match l with
  | [] => exact absurd rfl h
  | a :: t =>
    simp only [jsMaxList]
    obtain ⟨h1, h2⟩ := foldl_max_le t a
    constructor
    · rcases foldl_max_mem t a with hm | hm
      · rw [hm]; exact List.mem_cons_self a t
      · exact List.mem_cons_of_mem a hm
    · intro x hx
      rcases List.mem_cons.mp hx with rfl | hx
      · exact h1
      · exact h2 x hx

/-- C4: `calculateStats` on an item array reports the array's length as
`totalItems`; counts every item (parseable price or not) under its
category, defaulting absent/empty categories to `"uncategorized"`; sets
`averagePrice` to the mean of the parseable prices rounded to two decimal
places; sets `minPrice`/`maxPrice` to the least/greatest parseable price;
leaves every price field `0` when no price is parseable; and maps the empty
array to the exact zero-value stats. -/
theorem calculateStats_spec (items : List Item) :
    (calculateStats (.arr items)).totalItems = items.length ∧
    (∀ c : JSStr, lookupCount (calculateStats (.arr items)).categories c =
      items.countP (fun item => decide (jsCategory item = c))) ∧
    (calculateStats (.arr items)).averagePrice =
      (if parsedPrices items = [] then 0
       else round2 ((parsedPrices items).sum / ((parsedPrices items).length : ℚ))) ∧
    (parsedPrices items = [] →
      (calculateStats (.arr items)).minPrice = 0 ∧
      (calculateStats (.arr items)).maxPrice = 0) ∧
    (parsedPrices items ≠ [] →
      (calculateStats (.arr items)).minPrice ∈ parsedPrices items ∧
      (∀ x ∈ parsedPrices items, (calculateStats (.arr items)).minPrice ≤ x) ∧
      (calculateStats (.arr items)).maxPrice ∈ parsedPrices items ∧
      (∀ x ∈ parsedPrices items, x ≤ (calculateStats (.arr items)).maxPrice)) ∧
    calculateStats (.arr []) = zeroStats := by
  have hz : calculateStats (.arr []) = zeroStats := rfl
  match items with
  | [] =>
    refine ⟨rfl, ?_, ?_, fun _ => ⟨rfl, rfl⟩, ?_, hz⟩
    · intro c; simp [calculateStats, zeroStats, lookupCount, List.countP_nil]
    · simp [calculateStats, zeroStats, parsedPrices]
    · intro h; exact absurd rfl h
  | it :: rest =>
    have hlen : ¬((it :: rest).length = 0) := by simp
    have hcalc : calculateStats (.arr (it :: rest)) =
        { totalItems := (it :: rest).length
          averagePrice :=
            if (parsedPrices (it :: rest)).length > 0 then
              round2 ((parsedPrices (it :: rest)).sum /
                ((parsedPrices (it :: rest)).length : ℚ))
            else 0
          minPrice :=
            if (parsedPrices (it :: rest)).length > 0 then
              jsMinList (parsedPrices (it :: rest)) else 0
          maxPrice :=
            if (parsedPrices (it :: rest)).length > 0 then
              jsMaxList (parsedPrices (it :: rest)) else 0
          categories :=
            (it :: rest).foldl (fun m item => bumpCat m (jsCategory item)) [] } := by
      rw [calculateStats, if_neg hlen]
    refine ⟨by rw [hcalc], ?_, ?_, ?_, ?_, hz⟩
    · intro c
      rw [hcalc]
      have := lookupCount_foldl_bumpCat (it :: rest) [] c
      simpa [lookupCount] using this
    · rw [hcalc]
      by_cases hp : parsedPrices (it :: rest) = []
      · simp [hp]
      · have hlp : (parsedPrices (it :: rest)).length > 0 :=
          List.length_pos.mpr hp
        simp [hp, hlp]
    · intro hp
      rw [hcalc]
      have hlp : ¬((parsedPrices (it :: rest)).length > 0) := by
        simp [hp]
      simp [hlp]
    · intro hp
      have hlp : (parsedPrices (it :: rest)).length > 0 :=
        List.length_pos.mpr hp
      obtain ⟨hmin1, hmin2⟩ := jsMinList_spec (parsedPrices (it :: rest)) hp
      obtain ⟨hmax1, hmax2⟩ := jsMaxList_spec (parsedPrices (it :: rest)) hp
      rw [hcalc]
      simp only [hlp, if_pos]
      exact ⟨hmin1, hmin2, hmax1, hmax2⟩

/-- Witness for C4: on the demo catalog the parseable prices are
`[100, 150]`, the reported minimum is among them, and the item with the
unparseable price is still counted. -/
theorem calculateStats_spec_witness :
    parsedPrices demoItems ≠ [] ∧
    (calculateStats (.arr demoItems)).minPrice ∈ parsedPrices demoItems ∧
    (calculateStats (.arr demoItems)).totalItems = 3 :=
  ⟨by decide, ((calculateStats_spec demoItems).2.2.2.2.1 (by decide)).1,
   (calculateStats_spec demoItems).1⟩

/-- C10: `calculateStats` on any non-array value (`null`, `undefined`, a
number, …) returns the exact zero-value stats record, without failing. -/
theorem calculateStats_not_array (tag : String) :
    calculateStats (.notArr tag) = zeroStats := rfl

/-- The rational ceiling of `len / l` agrees with the natural-number
ceiling-division formula `(len + l - 1) / l`. -/
theorem ceil_div_eq_nat_formula (len l : Nat) (hl : 0 < l) :
    ⌈(len : ℚ) / (l : ℚ)⌉ = (((len + l - 1) / l : ℕ) : ℤ) := by
  have hdm := Nat.div_add_mod (len + l - 1) l
  have hmod : (len + l - 1) % l < l := Nat.mod_lt _ hl
  set m := (len + l - 1) / l with hm
  have h1 : len ≤ l * m := by omega
  have h2 : l * m < len + l := by omega
  have hlq : (0 : ℚ) < (l : ℚ) := by exact_mod_cast hl
  rw [Int.ceil_eq_iff]
  have h1q : (len : ℚ) ≤ (l : ℚ) * (m : ℚ) := by exact_mod_cast h1
  have h2q : (l : ℚ) * (m : ℚ) < (len : ℚ) + (l : ℚ) := by exact_mod_cast h2
  constructor
  · rw [lt_div_iff₀ hlq]
    push_cast
    linarith
  · rw [div_le_iff₀ hlq]
    push_cast
    linarith

/-- A page whose (non-negative) start index reaches past the end of the
list slices to the empty list. -/
theorem jsSlice_start_beyond {α : Type} (l : List α) (s e : Int)
    (hs : 0 ≤ s) (hlen : (l.length : Int) ≤ s) :
    jsSlice l (some s) (some e) = [] := by
  rw [jsSlice]
  apply List.drop_eq_nil_of_le
  rw [List.length_take]
  refine le_trans (min_le_right _ _) ?_
  rw [sliceIndex, if_neg (not_lt.mpr hs)]
  have hsn : l.length ≤ s.toNat := by omega
  exact le_min hsn (le_refl _)

/-- Concrete page count for 45 items at page size 20. -/
theorem jsCeilDiv_45_20 : jsCeilDiv 45 (some (20 : Int)) = .num 3 := by
  rw [jsCeilDiv, if_neg (by norm_num)]
  have hc := ceil_div_eq_nat_formula 45 20 (by norm_num)
  norm_num at hc ⊢
  rw [hc]
  norm_num

/-- C5: for positive `page` and `limit`, a page beyond the last one yields
an empty item slice while the metadata still reports the ceiling-division
page count and the true item total; in particular with 45 items and page
size 20 the page count is 3, page 3 holds 5 items and page 4 is empty with
the page count still 3. -/
theorem paginate_beyond_last_page (items : List Item) (page limit : Nat)
    (hp : 0 < page) (hl : 0 < limit)
    (hbeyond : (items.length + limit - 1) / limit < page) :
    (paginate items (some (page : Int)) (some (limit : Int))).1 = [] ∧
    (paginate items (some (page : Int)) (some (limit : Int))).2.totalPages =
      .num ((((items.length + limit - 1) / limit : ℕ) : ℚ)) ∧
    (paginate items (some (page : Int)) (some (limit : Int))).2.totalItems =
      items.length ∧
    (paginate demoItems45 (some 3) (some 20)).2.totalPages = .num 3 ∧
    (paginate demoItems45 (some 3) (some 20)).1.length = 5 ∧
    (paginate demoItems45 (some 4) (some 20)).1 = [] ∧
    (paginate demoItems45 (some 4) (some 20)).2.totalPages = .num 3 ∧
    (paginate demoItems45 (some 4) (some 20)).2.totalItems = 45 := by
  obtain ⟨k, rfl⟩ : ∃ k, page = k + 1 := ⟨page - 1, by omega⟩
  have h1 : items.length ≤ limit * ((items.length + limit - 1) / limit) := by
    have hdm := Nat.div_add_mod (items.length + limit - 1) limit
    have hmod := Nat.mod_lt (items.length + limit - 1) hl
    omega
  have h2 : limit * ((items.length + limit - 1) / limit) ≤ limit * k :=
    Nat.mul_le_mul_left _ (by omega)
  have h3 : (items.length : Int) ≤ (((k + 1 : ℕ) : Int) - 1) * (limit : Int) := by
    have hn : items.length ≤ limit * k := le_trans h1 h2
    have hz : (items.length : Int) ≤ (limit : Int) * (k : Int) := by
      exact_mod_cast hn
    push_cast
    linarith [mul_comm (k : Int) (limit : Int)]
  have hs0 : (0 : Int) ≤ (((k + 1 : ℕ) : Int) - 1) * (limit : Int) := by
    have : (0 : Int) ≤ (k : Int) * limit := by positivity
    push_cast
    linarith
  have htp3 : (paginate demoItems45 (some 3) (some 20)).2.totalPages = .num 3 := by
    show jsCeilDiv demoItems45.length (some 20) = .num 3
    rw [show demoItems45.length = 45 from rfl, jsCeilDiv_45_20]
  have htp4 : (paginate demoItems45 (some 4) (some 20)).2.totalPages = .num 3 := by
    show jsCeilDiv demoItems45.length (some 20) = .num 3
    rw [show demoItems45.length = 45 from rfl, jsCeilDiv_45_20]
  refine ⟨?_, ?_, rfl, htp3, by decide, by decide, htp4, by decide⟩
  · show jsSlice items
      (nanMap2 (fun p l => (p - 1) * l) (some ((k + 1 : ℕ) : Int)) (some (limit : Int)))
      (nanMap2 (· + ·)
        (nanMap2 (fun p l => (p - 1) * l) (some ((k + 1 : ℕ) : Int)) (some (limit : Int)))
        (some (limit : Int))) = []
    rw [nanMap2, nanMap2]
    exact jsSlice_start_beyond items _ _ hs0 h3
  · show jsCeilDiv items.length (some (limit : Int)) =
      .num ((((items.length + limit - 1) / limit : ℕ) : ℚ))
    rw [jsCeilDiv]
    have hlz : ¬((limit : Int) = 0) := by
      simp only [Int.natCast_eq_zero]
      omega
    rw [if_neg hlz]
    have hc := ceil_div_eq_nat_formula items.length limit hl
    have : ⌈(items.length : ℚ) / ((limit : Int) : ℚ)⌉ =
        (((items.length + limit - 1) / limit : ℕ) : ℤ) := by
      push_cast
      push_cast at hc
      exact hc
    rw [this]
    push_cast
    rfl

/-- Witness for C5 at the 45-item catalog, page 4, page size 20. -/
theorem paginate_beyond_last_page_witness :
    (demoItems45.length + 20 - 1) / 20 < 4 ∧
    (paginate demoItems45 (some ((4 : ℕ) : Int)) (some ((20 : ℕ) : Int))).1 = [] :=
  ⟨by decide,
   (paginate_beyond_last_page demoItems45 4 20 (by decide) (by decide) (by decide)).1⟩

/-- Counterexample to C2: requesting `page=0` (a provided, non-positive
value) neither raises (the handler is a total function with no
`InvalidParameterError` path) nor falls back to `page=1`: the response
reports `currentPage: 0`, metadata computed directly from the invalid
value. -/
theorem itemsRoute_page_zero_not_defaulted :
    ¬((itemsRoute demoItems45 (some "0".data) none none).pagination.currentPage =
        .num 1 ∧
      (itemsRoute demoItems45 (some "0".data) none none).pagination.itemsPerPage =
        .num 10) ∧
    (itemsRoute demoItems45 (some "0".data) none none).pagination.currentPage =
      .num 0 := by
  constructor
  · intro h
    exact absurd h.1 (by decide)
  · decide

/-- C2 amended: only an absent `page`/`limit` parameter is defaulted (to 1
and 10); a provided value is passed through `parseInt` and used as-is — the
returned metadata echoes the parsed value (including `NaN`), and no request
is rejected for its pagination parameters. -/
theorem itemsRoute_param_handling (allItems : List Item)
    (pageRaw limitRaw qRaw : Option JSStr) :
    (itemsRoute allItems pageRaw limitRaw qRaw).pagination.currentPage =
      toJSNum (paramToInt pageRaw 1) ∧
    (itemsRoute allItems pageRaw limitRaw qRaw).pagination.itemsPerPage =
      toJSNum (paramToInt limitRaw 10) ∧
    (itemsRoute allItems none none qRaw).pagination.currentPage = .num 1 ∧
    (itemsRoute allItems none none qRaw).pagination.itemsPerPage = .num 10 :=
  ⟨rfl, rfl, rfl, rfl⟩

/-- C6: for every item list and every query that is empty or
all-whitespace, `filterItems` returns the input list itself. -/
theorem filterItems_identity (items : List Item) (query : JSStr)
    (h : jsTrim query = []) :
    filterItems items query = items := by
  rw [filterItems, if_pos (Or.inr h)]

/-- Witness for C6 at a concrete catalog with the empty and an
all-whitespace query. -/
theorem filterItems_identity_witness :
    jsTrim "  ".data = [] ∧
    filterItems demoItems "  ".data = demoItems ∧
    filterItems demoItems "".data = demoItems :=
  ⟨by decide,
   filterItems_identity demoItems "  ".data (by decide),
   filterItems_identity demoItems "".data (by decide)⟩

/-- C7: a successful load installs the snapshot with the load time as
timestamp; any later call within the TTL window returns that identical
snapshot without invoking the loader; the loader is skipped exactly when
the entry is valid (`now - timestamp < ttl` with a cached value present);
and whenever the entry is invalid, a successfully returned snapshot is the
freshly installed one, never the unrefreshed entry. -/
theorem getItems_ttl_roundtrip (st : ItemsCacheState) (t₁ t₂ : Nat)
    (s : Snapshot) (r₂ : Except String Snapshot)
    (hmiss : st.itemsCache = none ∨ ¬(t₁ - st.itemsCacheTimestamp < CACHE_TTL))
    (hfresh : t₂ - t₁ < CACHE_TTL) :
    getItems st t₁ (.ok s) = (.ok s, ⟨some s, t₁⟩, true) ∧
    getItems ⟨some s, t₁⟩ t₂ r₂ = (.ok s, ⟨some s, t₁⟩, false) ∧
    ∀ (st' : ItemsCacheState) (now : Nat) (r : Except String Snapshot),
      ((getItems st' now r).2.2 = false ↔
        (∃ c, st'.itemsCache = some c ∧
          now - st'.itemsCacheTimestamp < CACHE_TTL)) ∧
      (∀ d : Snapshot,
        ¬(∃ c, st'.itemsCache = some c ∧
            now - st'.itemsCacheTimestamp < CACHE_TTL) →
        (getItems st' now r).1 = .ok d →
        (getItems st' now r).2.1 = ⟨some d, now⟩) := by
  refine ⟨?_, ?_, ?_⟩
  · obtain ⟨mc, ts⟩ := st
    rcases hmiss with h | h
    · simp only at h
      subst h
      rfl
    · simp only at h
      cases mc with
      | none => rfl
      | some c => simp [getItems, if_neg h]
  · simp [getItems, if_pos hfresh]
  · intro st' now r
    obtain ⟨mc, ts⟩ := st'
    cases mc with
    | none =>
      constructor
      · cases r <;> simp [getItems]
      · intro d hval hok
        cases r with
        | error e => simp [getItems] at hok
        | ok data =>
          simp [getItems] at hok
          simp [getItems, hok]
    | some c =>
      by_cases hv : now - ts < CACHE_TTL
      · constructor
        · simp [getItems, hv]
        · intro d hval
          exact absurd ⟨c, rfl, hv⟩ hval
      · constructor
        · cases r <;> simp [getItems, hv]
        · intro d hval hok
          cases r with
          | error e => simp [getItems, hv] at hok
          | ok data =>
            simp [getItems, hv] at hok
            simp [getItems, hv, hok]

/-- Witness for C7: an empty cache loads at time 1000; a call at time 2000
is served from the cache even though its read would fail. -/
theorem getItems_ttl_roundtrip_witness :
    (⟨none, 0⟩ : ItemsCacheState).itemsCache = none ∧
    2000 - 1000 < CACHE_TTL ∧
    getItems ⟨some demoItems, 1000⟩ 2000 (.error "boom") =
      (.ok demoItems, ⟨some demoItems, 1000⟩, false) :=
  ⟨rfl, by decide,
   (getItems_ttl_roundtrip ⟨none, 0⟩ 1000 2000 demoItems (.error "boom")
     (Or.inl rfl) (by decide)).2.1⟩

/-- Counterexample to C3: with a previously loaded snapshot gone stale
(loaded at 0, read at 30000) and a failing reload, `getItems` does not
serve the stale snapshot — it returns the error
`'Failed to read items data'`. -/
theorem getItems_stale_failure_not_masked :
    (getItems ⟨some demoItems, 0⟩ 30000 (.error "ENOENT")).1 ≠
      .ok demoItems ∧
    (getItems ⟨some demoItems, 0⟩ 30000 (.error "ENOENT")).1 =
      .error "Failed to read items data" := by
  exact ⟨by decide, by decide⟩

/-- C3 amended: if the entry is stale, a previous snapshot exists, and the
reload fails, `getItems` propagates the failure `'Failed to read items
data'` to the caller; the stale snapshot is retained in the cache state but
is not served. -/
theorem getItems_stale_failure_propagates (snap : Snapshot) (ts now : Nat)
    (e : String) (hstale : ¬(now - ts < CACHE_TTL)) :
    getItems ⟨some snap, ts⟩ now (.error e) =
      (.error "Failed to read items data", ⟨some snap, ts⟩, true) := by
  rw [getItems]
  simp only
  rw [if_neg hstale]

/-- Witness for the amended C3 at a concrete stale state. -/
theorem getItems_stale_failure_propagates_witness :
    ¬(30000 - 0 < CACHE_TTL) ∧
    getItems ⟨some demoItems, 0⟩ 30000 (.error "ENOENT") =
      (.error "Failed to read items data", ⟨some demoItems, 0⟩, true) :=
  ⟨by decide,
   getItems_stale_failure_propagates demoItems 0 30000 "ENOENT" (by decide)⟩

/-- C8: `invalidateCache` unconditionally clears the cached stats and
cancels the pending expiry timeout, and the next `getCachedStats` — at any
time, however much TTL remained — takes the recompute path, returning the
freshly computed statistics of whatever the items fetch delivers. -/
theorem invalidateCache_forces_recompute (st : StatsCacheState) (now : Nat)
    (itemsResult : Except String (List Item)) :
    (invalidateCache st).statsCache = none ∧
    (invalidateCache st).cacheTimeout = none ∧
    (getCachedStats (invalidateCache st) now itemsResult).2.2 = true ∧
    (getCachedStats (invalidateCache st) now itemsResult).1 =
      itemsResult.map (fun items => calculateStats (.arr items)) := by
  cases itemsResult <;> exact ⟨rfl, rfl, rfl, rfl⟩

/-- Counterexample to C9: two `getItems()` calls that both pass the
validity check while the entry is stale (loaded at 0, both arriving at
40000) issue two file reads, not the single load the claim requires. -/
theorem concurrent_stale_gets_two_reads_cex :
    (twoStaleCallsRun ⟨some demoItems, 0⟩ 40000 demoItems demoItems).readFileCalls ≠ 1 ∧
    (twoStaleCallsRun ⟨some demoItems, 0⟩ 40000 demoItems demoItems).readFileCalls = 2 := by
  exact ⟨by decide, by decide⟩

/-- C9 amended: there is no single-flight guard: two concurrent `get()`
calls that both check a stale (or empty) entry before either read resolves
each invoke the loader — two `fs.readFile` calls — and each caller receives
the result of its own read, the cache ending at the last writer's
snapshot. -/
theorem concurrent_stale_gets_two_reads (st : ItemsCacheState) (now : Nat)
    (a b : Snapshot)
    (hstale : st.itemsCache = none ∨
      ¬(now - st.itemsCacheTimestamp < CACHE_TTL)) :
    (twoStaleCallsRun st now a b).readFileCalls = 2 ∧
    (twoStaleCallsRun st now a b).tasks =
      [.done (.ok a), .done (.ok b)] ∧
    (twoStaleCallsRun st now a b).cache = ⟨some b, now⟩ := by
  obtain ⟨mc, ts⟩ := st
  rcases hstale with h | h
  · simp only at h
    subst h
    exact ⟨rfl, rfl, rfl⟩
  · simp only at h
    cases mc with
    | none => exact ⟨rfl, rfl, rfl⟩
    | some c => simp [twoStaleCallsRun, runEvs, stepEv, h]

/-- Witness for the amended C9 starting from an empty cache. -/
theorem concurrent_stale_gets_two_reads_witness :
    (⟨none, 0⟩ : ItemsCacheState).itemsCache = none ∧
    (twoStaleCallsRun ⟨none, 0⟩ 40000 demoItems demoItems).readFileCalls = 2 :=
  ⟨rfl,
   (concurrent_stale_gets_two_reads ⟨none, 0⟩ 40000 demoItems demoItems
     (Or.inl rfl)).1⟩

end Koinos
